import Mathlib

/-!
Verification of the invoice-extraction CRUD application
(`Desktop/M`: `services/invoice_parser.py`, `services.py`, `queries.py`,
`models.py`, `app.py`) against its natural-language specification.

The Python code is shallowly embedded: Python floats are modelled as
exact decimals (`Deci`, a mantissa with a power-of-ten scale; every float
the program manipulates comes from a decimal literal in OCR text or a
service confidence, so this is exact), Python `None` as `Option.none`,
dicts as insertion-ordered association lists, raised `HTTPException`s as
`Except` errors, and the relational store (SQLAlchemy over SQLite) as
explicit lists of records.
-/

namespace InvoiceApp

/-- Exact decimal number: the value `mant / 10 ^ scale`.  This models the
Python floats occurring in the program (amounts parsed from decimal
strings, confidence scores).  Comparisons are by value via
cross-multiplication; `toRat` gives the denoted rational. -/
structure Deci where
  mant : Int
  scale : Nat
deriving DecidableEq

def pow10 : Nat → Int
  | 0 => 1
  | n + 1 => 10 * pow10 n

def Deci.toRat (a : Deci) : ℚ := (a.mant : ℚ) / (10 : ℚ) ^ a.scale

def Deci.leb (a b : Deci) : Bool := a.mant * pow10 b.scale ≤ b.mant * pow10 a.scale

def Deci.ltb (a b : Deci) : Bool := a.mant * pow10 b.scale < b.mant * pow10 a.scale

def Deci.isZero (a : Deci) : Bool := a.mant == 0

/-! ## String helpers

Models of the Python string primitives used by the code.
`pyStrip` models `str.strip()` (ASCII whitespace; the code only meets
ASCII OCR text).  `removeDollarComma` models
`.replace("$", "").replace(",", "")`, which removes every occurrence. -/

def pyStrip (s : String) : String :=
  String.mk (((s.toList.dropWhile Char.isWhitespace).reverse.dropWhile Char.isWhitespace).reverse)

def removeDollarComma (s : String) : String :=
  String.mk (s.toList.filter (fun c => c != '$' && c != ','))

def digitVal (c : Char) : Nat := c.toNat - 48

def digitsVal (l : List Char) : Nat := l.foldl (fun a c => a * 10 + digitVal c) 0

/-- Shift a decimal by `10 ^ e` for an exponent sign and magnitude:
used for the `e`/`E` suffix of a float literal. -/
def Deci.shift (a : Deci) (neg : Bool) (e : Nat) : Deci :=
  if neg then ⟨a.mant, a.scale + e⟩
  else if e ≤ a.scale then ⟨a.mant, a.scale - e⟩
  else ⟨a.mant * pow10 (e - a.scale), 0⟩

/-- Model of Python's `float(string)` on an already-stripped string:
optional sign, decimal digits with optional fraction part, optional
exponent.  (The `inf`/`nan` words and digit-group underscores that
CPython also accepts are outside the model; no claim depends on them.)
Returns the parsed value as an exact decimal. -/
def pyFloatCore (cs0 : List Char) : Option Deci :=
  let neg : Bool := match cs0 with
    | '-' :: _ => true
    | _ => false
  let cs := match cs0 with
    | '+' :: r => r
    | '-' :: r => r
    | r => r
  let ip := cs.takeWhile Char.isDigit
  let cs1 := cs.dropWhile Char.isDigit
  let fp := match cs1 with
    | '.' :: r => r.takeWhile Char.isDigit
    | _ => []
  let cs2 := match cs1 with
    | '.' :: r => r.dropWhile Char.isDigit
    | _ => cs1
  if ip.isEmpty && fp.isEmpty then none
  else
    let m : Int := digitsVal (ip ++ fp)
    let mant : Deci := ⟨if neg then -m else m, fp.length⟩
    match cs2 with
    | [] => some mant
    | e :: r =>
      if e == 'e' || e == 'E' then
        let eneg : Bool := match r with
          | '-' :: _ => true
          | _ => false
        let r1 := match r with
          | '+' :: rr => rr
          | '-' :: rr => rr
          | rr => rr
        let ed := r1.takeWhile Char.isDigit
        let r2 := r1.dropWhile Char.isDigit
        if ed.isEmpty || !r2.isEmpty then none
        else some (mant.shift eneg (digitsVal ed))
      else none

def pyFloat? (s : String) : Option Deci := pyFloatCore s.toList

/-! ## Dynamic values

`SVal` is the type of values stored inside a parsed line-item dict
(string or float).  `DVal` is the type of values stored in the top-level
`data` dict of an extraction result and in database cells: string, float,
or the `Items` list of line-item dicts.  Python `None` is represented by
`Option.none` one level up, so neither type has a null constructor. -/

inductive SVal where
  | s : String → SVal
  | n : Deci → SVal
deriving DecidableEq

inductive DVal where
  | s : String → DVal
  | n : Deci → DVal
  | items : List (List (String × Option SVal)) → DVal
deriving DecidableEq

def svalToDVal : SVal → DVal
  | .s v => .s v
  | .n q => .n q

/-! ## `amount_format` (services/invoice_parser.py, lines 234-245)

`if not value: return ""`, then
`float(str(value).replace("$", "").replace(",", "").strip())`,
returning the original value if the conversion raises. -/

def amount_format (value : String) : SVal :=
  if value == "" then SVal.s ""
  else
    match pyFloat? (pyStrip (removeDollarComma value)) with
    | some q => SVal.n q
    | none => SVal.s value

/-! ## `format_date` (services/invoice_parser.py, lines 220-231)

`datetime.strptime(date_text.strip(), "%b %d %Y")` followed by
`.replace(tzinfo=timezone.utc).isoformat()`; a `ValueError` returns the
original text.  The embedding reproduces CPython `_strptime` semantics
for this fixed format: `%b` is a case-insensitive three-letter month
abbreviation, a literal space matches one-or-more whitespace, `%d` is a
one- or two-digit day in 1..31 (with regex-style backtracking from the
two-digit to the one-digit alternative), `%Y` is exactly four digits,
the whole string must be consumed, and `datetime` construction rejects
year 0 and days beyond the month length. -/

def monthAbbrevs : List (String × Nat) :=
  [("jan", 1), ("feb", 2), ("mar", 3), ("apr", 4), ("may", 5), ("jun", 6),
   ("jul", 7), ("aug", 8), ("sep", 9), ("oct", 10), ("nov", 11), ("dec", 12)]

def matchMonth : List Char → Option (Nat × List Char)
  | c1 :: c2 :: c3 :: rest =>
    (monthAbbrevs.find? (fun p => p.1 == String.mk [c1.toLower, c2.toLower, c3.toLower])).map
      (fun p => (p.2, rest))
  | _ => none

def dropWs1 : List Char → Option (List Char)
  | c :: rest => if c.isWhitespace then some (rest.dropWhile Char.isWhitespace) else none
  | [] => none

def year4 : List Char → Option Nat
  | [y1, y2, y3, y4] =>
    if y1.isDigit && y2.isDigit && y3.isDigit && y4.isDigit then
      some (digitsVal [y1, y2, y3, y4])
    else none
  | _ => none

def dayYearTail (d : Nat) (cs : List Char) : Option (Nat × Nat) :=
  (dropWs1 cs).bind (fun cs2 => (year4 cs2).map (fun y => (d, y)))

def matchDayYear (cs : List Char) : Option (Nat × Nat) :=
  (match cs with
   | d1 :: d2 :: rest =>
     if d1.isDigit && d2.isDigit then
       let n := digitVal d1 * 10 + digitVal d2
       if 1 ≤ n ∧ n ≤ 31 then dayYearTail n rest else none
     else none
   | _ => none)
  <|>
  (match cs with
   | d1 :: rest => if d1.isDigit && 1 ≤ digitVal d1 then dayYearTail (digitVal d1) rest else none
   | _ => none)

def isLeap (y : Nat) : Bool := y % 4 == 0 && (y % 100 != 0 || y % 400 == 0)

def daysInMonth (y m : Nat) : Nat :=
  if m == 2 then (if isLeap y then 29 else 28)
  else if m == 4 || m == 6 || m == 9 || m == 11 then 30
  else 31

def parseMonDDYYYY (cs : List Char) : Option (Nat × Nat × Nat) :=
  (matchMonth cs).bind fun mr =>
  (dropWs1 mr.2).bind fun r2 =>
  (matchDayYear r2).bind fun dy =>
  if 1 ≤ dy.2 ∧ dy.1 ≤ daysInMonth dy.2 mr.1 then some (dy.2, mr.1, dy.1) else none

def digitChar (n : Nat) : Char := Char.ofNat (48 + n)

def pad2 (n : Nat) : String := String.mk [digitChar (n / 10 % 10), digitChar (n % 10)]

def pad4 (n : Nat) : String :=
  String.mk [digitChar (n / 1000 % 10), digitChar (n / 100 % 10),
             digitChar (n / 10 % 10), digitChar (n % 10)]

def format_date (date_text : String) : String :=
  if date_text == "" then ""
  else
    match parseMonDDYYYY (pyStrip date_text).toList with
    | some (y, m, d) => pad4 y ++ "-" ++ pad2 m ++ "-" ++ pad2 d ++ "T00:00:00+00:00"
    | none => date_text

/-! ## Model of the external document-AI response

The OCI `AnalyzeDocumentResult` tree, restricted to what the two parser
functions read.  `Option` models absent-or-`None` attributes; an object
that Python would test for truthiness and find absent/empty is the
corresponding `none`/`[]`.  Field values are restricted to text: the
parsers' dual `.text`/`.value` accessors both yield strings for the
key-value-extraction feature used here. -/

structure FieldLabel where
  name : Option String
  confidence : Option Deci

mutual
inductive DocField where
  | mk : Option FieldLabel → Option FieldValue → DocField
inductive FieldValue where
  | mk : Option String → Option String → Option (List DocField) → FieldValue
end

def DocField.label : DocField → Option FieldLabel
  | .mk l _ => l

def DocField.value : DocField → Option FieldValue
  | .mk _ v => v

def FieldValue.text : FieldValue → Option String
  | .mk t _ _ => t

def FieldValue.value : FieldValue → Option String
  | .mk _ v _ => v

def FieldValue.items : FieldValue → Option (List DocField)
  | .mk _ _ i => i

structure DocType where
  confidence : Option Deci

structure OciResponse where
  pages : List (List DocField)
  detectedDocumentTypes : List DocType

/-- HTTP error: an `HTTPException(status_code, detail)`. -/
structure HErr where
  status : Nat
  detail : String
deriving DecidableEq

/-! ## Dict operations

Python dicts are insertion-ordered; assignment to an existing key
overwrites in place. -/

def dictInsert {α : Type} (d : List (String × α)) (k : String) (v : α) : List (String × α) :=
  if d.any (fun p => p.1 == k) then d.map (fun p => if p.1 == k then (k, v) else p)
  else d ++ [(k, v)]

def dget {α : Type} (d : List (String × α)) (k : String) : Option α :=
  (d.find? (fun p => p.1 == k)).map (fun p => p.2)

/-! ## `parse_invoice_from_pdf_enhanced` (services/invoice_parser.py, lines 79-217)

The function is embedded as a pure function of (a) whether the lazily
initialized OCI client is configured, (b) the uploaded bytes, and (c) the
outcome of the external `analyze_document` call (`none` = the call raised,
which the code maps to a 503).  Base64 encoding of the bytes does not
affect any observable behavior and is not modelled. -/

def money6 : List String :=
  ["InvoiceTotal", "SubTotal", "ShippingCost", "Amount", "UnitPrice", "AmountDue"]

def money3 : List String := ["Quantity", "UnitPrice", "Amount"]

/-- `field.field_label.name if field.field_label and hasattr(...) and
field.field_label.name else None`: the name, if the label exists and the
name is truthy (non-`None`, non-empty). -/
def truthyName (l : Option FieldLabel) : Option String :=
  match l with
  | none => none
  | some lab =>
    match lab.name with
    | none => none
    | some n => if n == "" then none else some n

/-- `field.field_label.confidence if ... is not None else 0.0`. -/
def fieldConfOf (l : Option FieldLabel) : Deci :=
  match l with
  | some lab => lab.confidence.getD ⟨0, 0⟩
  | none => ⟨0, 0⟩

/-- The enhanced parser's dual accessor: prefer a truthy `.text`,
fall back to a non-`None` `.value`. -/
def rawText (fvo : Option FieldValue) : Option String :=
  match fvo with
  | none => none
  | some fv =>
    match fv.text with
    | some t => if t != "" then some t else fv.value
    | none => fv.value

def format_dateOpt (v : Option String) : String :=
  match v with
  | none => ""
  | some s => format_date s

def amount_formatOpt (v : Option String) : SVal :=
  match v with
  | none => SVal.s ""
  | some s => amount_format s

/-- One `sub` of a line item: key from the label (or `""`), value from
`.text`/`.value` (or `""`), numeric item fields cleaned, and dropped
when the key is empty. -/
def processSub (acc : List (String × Option SVal)) (sub : DocField) :
    List (String × Option SVal) :=
  let k := (truthyName sub.label).getD ""
  let v0 : String := (rawText sub.value).getD ""
  let v : SVal := if money3.contains k then amount_format v0 else SVal.s v0
  if k == "" then acc else dictInsert acc k (some v)

def parseOneItem (subs : List DocField) : List (String × Option SVal) :=
  subs.foldl processSub []

/-- The enhanced parser's `Items` loop: one flat dict per sub-field that
has a `field_value` with an `items` list. -/
def parseItemsList (l : List DocField) : List (List (String × Option SVal)) :=
  l.foldl
    (fun acc sf =>
      match sf.value with
      | none => acc
      | some fv =>
        match fv.items with
        | some subs => acc ++ [parseOneItem subs]
        | none => acc)
    []

/-- Processing of one `document_field` by the enhanced parser. -/
def processField (acc : List (String × Option DVal) × List (String × Deci)) (f : DocField) :
    List (String × Option DVal) × List (String × Deci) :=
  match truthyName f.label with
  | none => acc
  | some name =>
    let d := acc.1
    let dc := acc.2
    let vraw : Option String := rawText f.value
    let v1 : Option DVal :=
      if name == "InvoiceDate" then some (DVal.s (format_dateOpt vraw))
      else if money6.contains name then some (svalToDVal (amount_formatOpt vraw))
      else vraw.map DVal.s
    let v2 : Option DVal :=
      if name == "Items" then
        match f.value with
        | some fv =>
          match fv.items with
          | some subs => some (DVal.items (parseItemsList subs))
          | none => v1
        | none => v1
      else v1
    (dictInsert d name v2,
     if name == "Items" then dc else dictInsert dc name (fieldConfOf f.label))

def processPages (pages : List (List DocField)) :
    List (String × Option DVal) × List (String × Deci) :=
  pages.foldl (fun acc page => page.foldl processField acc) ([], [])

/-- `if confidence and confidence < 0.9`: truthiness (non-`None`,
nonzero) before the threshold comparison. -/
def lowTruthyConf (c : Option Deci) : Bool :=
  match c with
  | some q => !q.isZero && q.ltb ⟨9, 1⟩
  | none => false

/-- The enhanced parser's validation loop over
`detected_document_types`: reassigns `confidence` on every iteration and
raises 400 when the current one is truthy and below 0.9; the confidence
of the last detected type (possibly `None`) is what the result reports. -/
def validateDetectedTypes : Option Deci → List DocType → Except HErr (Option Deci)
  | conf, [] => .ok conf
  | _, dt :: rest =>
    if lowTruthyConf dt.confidence then
      .error ⟨400, "Invalid document. Please upload a valid PDF invoice with high confidence."⟩
    else validateDetectedTypes dt.confidence rest

structure ExtractionResult where
  confidence : Option Deci
  data : List (String × Option DVal)
  dataConfidence : List (String × Deci)
deriving DecidableEq

def parse_invoice_from_pdf_enhanced (clientConfigured : Bool) (pdfBytes : List Nat)
    (svc : Option OciResponse) : Except HErr ExtractionResult :=
  if !clientConfigured then
    .error ⟨503, "OCI configuration error: Document AI client not configured"⟩
  else if pdfBytes.isEmpty then
    .error ⟨400, "Invalid document. Please upload a valid PDF invoice."⟩
  else
    match svc with
    | none => .error ⟨503, "The service is currently unavailable. Please try again later."⟩
    | some resp =>
      let dd := processPages resp.pages
      match validateDetectedTypes none resp.detectedDocumentTypes with
      | .error e => .error e
      | .ok conf => .ok ⟨conf, dd.1, dd.2⟩

/-! ## `parse_invoice_from_pdf` (services.py, lines 24-74)

The older variant.  It reads `field.field_value.value` directly (no
`.text` preference, no date or amount normalization), collects ALL line
items of one "Items" field into a single dict appended once, validates
with `any(doc.confidence >= 0.9)`, and reports the constant confidence 1.
Its wall-clock `predictionTime` output is not modelled.  Paths on which
the Python code would raise `AttributeError`/`TypeError` (a label-less
field reached by the items branch, a `None` detected-type confidence) are
modelled as non-matches and are not exercised by any theorem. -/

structure OldResult where
  confidence : Deci
  data : List (String × Option DVal)
  dataConfidence : List (String × Option Deci)
deriving DecidableEq

def strToLower (s : String) : String := String.mk (s.toList.map Char.toLower)

def oldItemsOf (f : DocField) : List DocField :=
  ((f.value.map FieldValue.items).join).getD []

def oldField (acc : List (String × Option DVal) × List (String × Option Deci) ×
    List (List (String × Option SVal))) (f : DocField) :
    List (String × Option DVal) × List (String × Option Deci) ×
    List (List (String × Option SVal)) :=
  let d := acc.1
  let dc := acc.2.1
  let its := acc.2.2
  let fieldName : Option String := f.label.map (fun lab => lab.name.getD "")
  let fieldConf : Option Deci := (f.label.map FieldLabel.confidence).join
  let isScalar : Bool :=
    match fieldName with
    | some n => n != "" && strToLower n != "items"
    | none => false
  if isScalar then
    match fieldName with
    | some n =>
      (dictInsert d n ((f.value.map FieldValue.value).join.map DVal.s),
       dictInsert dc n fieldConf, its)
    | none => (d, dc, its)
  else
    let item := (oldItemsOf f).foldl
      (fun it sf =>
        (oldItemsOf sf).foldl
          (fun it2 t =>
            dictInsert it2 ((t.label.map (fun lab => lab.name.getD "")).getD "")
              ((t.value.map FieldValue.value).join.map SVal.s))
          it)
      []
    (d, dc, its ++ [item])

def parse_invoice_from_pdf (clientConfigured : Bool) (resp : OciResponse) :
    Except HErr OldResult :=
  if !clientConfigured then .error ⟨500, "Document AI client not configured"⟩
  else
    let st := resp.pages.foldl (fun acc page => page.foldl oldField acc) ([], [], [])
    let d := dictInsert st.1 "Items" (some (DVal.items st.2.2))
    if !resp.detectedDocumentTypes.isEmpty &&
        !resp.detectedDocumentTypes.any (fun dt => Deci.leb ⟨9, 1⟩ (dt.confidence.getD ⟨0, 0⟩)) then
      .error ⟨400, "Invalid document. Please upload a valid invoice."⟩
    else .ok ⟨⟨1, 0⟩, d, st.2.1⟩

/-! ## Relational store (models.py, db.py)

Three tables: `invoices` (string primary key `InvoiceId`), `items`
(auto-increment integer key, FK to the invoice), `confidences`
(one-to-one with the invoice, same key).  SQLite is dynamically typed,
so cells hold `Option DVal` (`none` = SQL NULL); confidence cells are
`Option Deci` since only numbers reach them.  Row order models physical
insertion order, and `nextItemId` models the `items` auto-increment
counter. -/

structure InvoiceRec where
  InvoiceId : Option DVal
  VendorName : Option DVal
  InvoiceDate : Option DVal
  BillingAddressRecipient : Option DVal
  ShippingAddress : Option DVal
  SubTotal : Option DVal
  ShippingCost : Option DVal
  InvoiceTotal : Option DVal
deriving DecidableEq

structure ItemRec where
  id : Nat
  InvoiceId : Option DVal
  Description : Option DVal
  Name : Option DVal
  Quantity : Option DVal
  UnitPrice : Option DVal
  Amount : Option DVal
deriving DecidableEq

structure ConfRec where
  InvoiceId : Option DVal
  VendorName : Option Deci
  InvoiceDate : Option Deci
  BillingAddressRecipient : Option Deci
  ShippingAddress : Option Deci
  SubTotal : Option Deci
  ShippingCost : Option Deci
  InvoiceTotal : Option Deci
deriving DecidableEq

structure DB where
  invoices : List InvoiceRec
  items : List ItemRec
  confidences : List ConfRec
  nextItemId : Nat
deriving DecidableEq

def emptyDB : DB := ⟨[], [], [], 0⟩

/-! ## `save_invoice_extraction` (queries.py, lines 8-47)

Builds the header from `data.get(...)`, one item per entry of
`data["data"].get("Items", [])`, and the confidence row from
`dataConfidence`; `db.add` + `commit` in one transaction.  Every raising
path is surfaced by the caller as a 500 with rollback and is modelled as
the `Except` error: an ill-typed `Items` cell makes the item loop raise
(`TypeError`/`AttributeError`), a `None` `InvoiceId` makes the flush
raise `FlushError` ("NULL identity key" — the id column is a
non-autoincrementing primary key), and a duplicate primary key makes the
commit raise `IntegrityError`. -/

def dgetCell (d : List (String × Option DVal)) (k : String) : Option DVal :=
  (dget d k).join

/-- `data["data"].get("Items", [])` as consumed by the item loop: an
absent key defaults to the empty list and a list cell yields its item
dicts, while the other shapes raise inside `for it in ...: it.get(...)`
(`none` result): iterating `None` or a float raises `TypeError`, and a
nonempty string iterates over its characters, on which `.get` raises
`AttributeError` (the empty string iterates zero times). -/
def savedItemsIn (d : List (String × Option DVal)) :
    Option (List (List (String × Option SVal))) :=
  match dget d "Items" with
  | none => some []
  | some (some (DVal.items l)) => some l
  | some (some (DVal.s str)) => if str == "" then some [] else none
  | some (some (DVal.n _)) => none
  | some none => none

def itemCell (it : List (String × Option SVal)) (k : String) : Option DVal :=
  ((dget it k).join).map svalToDVal

def mkSavedItems (invId : Option DVal) (n : Nat) :
    List (List (String × Option SVal)) → List ItemRec
  | [] => []
  | it :: rest =>
    ⟨n, invId, itemCell it "Description", itemCell it "Name", itemCell it "Quantity",
     itemCell it "UnitPrice", itemCell it "Amount"⟩ :: mkSavedItems invId (n + 1) rest

def save_invoice_extraction (db : DB) (res : ExtractionResult) : Except String DB :=
  let d := res.data
  let inv : InvoiceRec :=
    ⟨dgetCell d "InvoiceId", dgetCell d "VendorName", dgetCell d "InvoiceDate",
     dgetCell d "BillingAddressRecipient", dgetCell d "ShippingAddress",
     dgetCell d "SubTotal", dgetCell d "ShippingCost", dgetCell d "InvoiceTotal"⟩
  match savedItemsIn d with
  | none => .error "TypeError or AttributeError in the Items loop"
  | some itemDicts =>
    let newItems := mkSavedItems inv.InvoiceId db.nextItemId itemDicts
    let cd := res.dataConfidence
    let conf : ConfRec :=
      ⟨inv.InvoiceId, dget cd "VendorName", dget cd "InvoiceDate",
       dget cd "BillingAddressRecipient", dget cd "ShippingAddress",
       dget cd "SubTotal", dget cd "ShippingCost", dget cd "InvoiceTotal"⟩
    if inv.InvoiceId = none then .error "FlushError: NULL identity key"
    else if db.invoices.any (fun i => i.InvoiceId == inv.InvoiceId) then
      .error "IntegrityError: duplicate primary key"
    else
      .ok ⟨db.invoices ++ [inv], db.items ++ newItems, db.confidences ++ [conf],
           db.nextItemId + newItems.length⟩

/-! ## Read queries (queries.py, lines 50-77) -/

structure ItemDict where
  Description : Option DVal
  Name : Option DVal
  Quantity : Option DVal
  UnitPrice : Option DVal
  Amount : Option DVal
deriving DecidableEq

structure InvoiceDict where
  InvoiceId : Option DVal
  VendorName : Option DVal
  InvoiceDate : Option DVal
  BillingAddressRecipient : Option DVal
  ShippingAddress : Option DVal
  SubTotal : Option DVal
  ShippingCost : Option DVal
  InvoiceTotal : Option DVal
  Items : List ItemDict
deriving DecidableEq

/-- The ORM relationship `invoice.items`: the item rows whose foreign key
matches this invoice, in table order. -/
def itemsOfInvoice (db : DB) (invId : Option DVal) : List ItemRec :=
  db.items.filter (fun it => it.InvoiceId == invId)

def invoiceDictOf (db : DB) (inv : InvoiceRec) : InvoiceDict :=
  ⟨inv.InvoiceId, inv.VendorName, inv.InvoiceDate, inv.BillingAddressRecipient,
   inv.ShippingAddress, inv.SubTotal, inv.ShippingCost, inv.InvoiceTotal,
   (itemsOfInvoice db inv.InvoiceId).map
     (fun it => ⟨it.Description, it.Name, it.Quantity, it.UnitPrice, it.Amount⟩)⟩

/-- `get_invoice_by_id`: `filter_by(InvoiceId=invoice_id).first()`, then
the composite dict.  SQLAlchemy compiles `filter_by(InvoiceId=None)` to
`IS NULL`, so the cell comparison (`==` on `Option DVal`) models both
the string-argument and the `None`-argument query. -/
def get_invoice_by_id (db : DB) (invId : Option DVal) : Option InvoiceDict :=
  (db.invoices.find? (fun i => i.InvoiceId == invId)).map (invoiceDictOf db)

/-- SQLite `ORDER BY <cell> ASC` over dynamically typed cells:
NULL < numbers < text (binary/codepoint order); the `Items` blob sorts
last.  Numbers compare by value, text lexicographically. -/
def charsLe : List Char → List Char → Bool
  | [], _ => true
  | _ :: _, [] => false
  | a :: as, b :: bs =>
    if a.toNat < b.toNat then true
    else if b.toNat < a.toNat then false
    else charsLe as bs

def dvRank : Option DVal → Nat
  | none => 0
  | some (.n _) => 1
  | some (.s _) => 2
  | some (.items _) => 3

def dvLe (a b : Option DVal) : Bool :=
  if dvRank a < dvRank b then true
  else if dvRank b < dvRank a then false
  else
    match a, b with
    | some (.n p), some (.n q) => p.leb q
    | some (.s p), some (.s q) => charsLe p.toList q.toList
    | _, _ => true

def dateLe (a b : InvoiceRec) : Prop := dvLe a.InvoiceDate b.InvoiceDate = true

instance : DecidableRel dateLe := fun a b => instDecidableEqBool (dvLe a.InvoiceDate b.InvoiceDate) true

/-- `get_invoices_by_vendor`: exact match on `VendorName`, ordered by
`InvoiceDate` ascending, then each row re-fetched by its id as a
composite dict (so a NULL-id row would contribute a `None`). -/
def get_invoices_by_vendor (db : DB) (vendor : String) : List (Option InvoiceDict) :=
  (List.insertionSort dateLe
      (db.invoices.filter (fun i => i.VendorName == some (DVal.s vendor)))).map
    (fun inv => get_invoice_by_id db inv.InvoiceId)

/-! ## `update_invoice` (queries.py, lines 83-148)

The JSON payload is modelled structurally: `Option (Option _)` for a
scalar key distinguishes key-absent (`none`) from key-present-with-value
(`some v`, where `v = none` is JSON null); `Items`, when present, is a
list of item dicts (a non-list value would raise in Python and is out of
model); the two accepted confidence keys hold per-field optional values,
with Python dict truthiness = at least one key present. -/

structure ConfPatch where
  VendorName : Option (Option Deci)
  InvoiceDate : Option (Option Deci)
  BillingAddressRecipient : Option (Option Deci)
  ShippingAddress : Option (Option Deci)
  SubTotal : Option (Option Deci)
  ShippingCost : Option (Option Deci)
  InvoiceTotal : Option (Option Deci)
deriving DecidableEq

def ConfPatch.truthy (p : ConfPatch) : Bool :=
  p.VendorName.isSome || p.InvoiceDate.isSome || p.BillingAddressRecipient.isSome ||
  p.ShippingAddress.isSome || p.SubTotal.isSome || p.ShippingCost.isSome ||
  p.InvoiceTotal.isSome

structure ItemPatch where
  Description : Option DVal
  Name : Option DVal
  Quantity : Option DVal
  UnitPrice : Option DVal
  Amount : Option DVal
deriving DecidableEq

structure InvoicePatch where
  VendorName : Option (Option DVal)
  InvoiceDate : Option (Option DVal)
  BillingAddressRecipient : Option (Option DVal)
  ShippingAddress : Option (Option DVal)
  SubTotal : Option (Option DVal)
  ShippingCost : Option (Option DVal)
  InvoiceTotal : Option (Option DVal)
  Items : Option (List ItemPatch)
  dataConfidence : Option ConfPatch
  Confidence : Option ConfPatch
deriving DecidableEq

/-- `data.get("dataConfidence") or data.get("Confidence") or {}`,
followed by `if conf_data:` — the first truthy of the two, else nothing. -/
def effConf (p : InvoicePatch) : Option ConfPatch :=
  match p.dataConfidence with
  | some c => if c.truthy then some c else
      match p.Confidence with
      | some c2 => if c2.truthy then some c2 else none
      | none => none
  | none =>
      match p.Confidence with
      | some c2 => if c2.truthy then some c2 else none
      | none => none

def applyP {α : Type} (cur : α) (patch : Option α) : α :=
  match patch with
  | some v => v
  | none => cur

def mkNewItems (invId : Option DVal) (n : Nat) : List ItemPatch → List ItemRec
  | [] => []
  | ip :: rest =>
    ⟨n, invId, ip.Description, ip.Name, ip.Quantity, ip.UnitPrice, ip.Amount⟩ ::
      mkNewItems invId (n + 1) rest

def replaceFirst {α : Type} (p : α → Bool) (new : α) : List α → List α
  | [] => []
  | x :: xs => if p x then new :: xs else x :: replaceFirst p new xs

def patchConfRec (r : ConfRec) (c : ConfPatch) : ConfRec :=
  ⟨r.InvoiceId, applyP r.VendorName c.VendorName, applyP r.InvoiceDate c.InvoiceDate,
   applyP r.BillingAddressRecipient c.BillingAddressRecipient,
   applyP r.ShippingAddress c.ShippingAddress, applyP r.SubTotal c.SubTotal,
   applyP r.ShippingCost c.ShippingCost, applyP r.InvoiceTotal c.InvoiceTotal⟩

def newConfRec (invId : Option DVal) (c : ConfPatch) : ConfRec :=
  ⟨invId, c.VendorName.join, c.InvoiceDate.join, c.BillingAddressRecipient.join,
   c.ShippingAddress.join, c.SubTotal.join, c.ShippingCost.join, c.InvoiceTotal.join⟩

def update_invoice (db : DB) (invoice_id : String) (p : InvoicePatch) :
    Option (DB × InvoiceRec) :=
  match db.invoices.find? (fun i => i.InvoiceId == some (DVal.s invoice_id)) with
  | none => none
  | some inv =>
    let inv2 : InvoiceRec :=
      ⟨inv.InvoiceId, applyP inv.VendorName p.VendorName, applyP inv.InvoiceDate p.InvoiceDate,
       applyP inv.BillingAddressRecipient p.BillingAddressRecipient,
       applyP inv.ShippingAddress p.ShippingAddress, applyP inv.SubTotal p.SubTotal,
       applyP inv.ShippingCost p.ShippingCost, applyP inv.InvoiceTotal p.InvoiceTotal⟩
    let itemsNid : List ItemRec × Nat :=
      match p.Items with
      | none => (db.items, db.nextItemId)
      | some l =>
        (db.items.filter (fun it => !(it.InvoiceId == inv.InvoiceId)) ++
           mkNewItems inv.InvoiceId db.nextItemId l,
         db.nextItemId + l.length)
    let confs : List ConfRec :=
      match effConf p with
      | none => db.confidences
      | some c =>
        match db.confidences.find? (fun r => r.InvoiceId == inv.InvoiceId) with
        | some r =>
          replaceFirst (fun r2 => r2.InvoiceId == inv.InvoiceId) (patchConfRec r c)
            db.confidences
        | none => db.confidences ++ [newConfRec inv.InvoiceId c]
    some (⟨replaceFirst (fun i => i.InvoiceId == some (DVal.s invoice_id)) inv2 db.invoices,
           itemsNid.1, confs, itemsNid.2⟩, inv2)

/-- `delete_invoice` (queries.py, lines 151-157): find by id, signal
`False` when absent, otherwise delete the row; the
`cascade="all, delete-orphan"` relationships delete the invoice's items
and confidence row with it. -/
def delete_invoice (db : DB) (invoice_id : String) : DB × Bool :=
  match db.invoices.find? (fun i => i.InvoiceId == some (DVal.s invoice_id)) with
  | none => (db, false)
  | some inv =>
    (⟨db.invoices.eraseP (fun i => i.InvoiceId == some (DVal.s invoice_id)),
      db.items.filter (fun it => !(it.InvoiceId == inv.InvoiceId)),
      db.confidences.filter (fun c => !(c.InvoiceId == inv.InvoiceId)),
      db.nextItemId⟩, true)

/-! ## HTTP façade (app.py)

Endpoints are pure functions of the request plus the modelled external
world (client configuration, service outcome) and the store.  The
`/extract` result triple also reports the final store and whether the
parser was invoked on that path.  Exception details interpolated from
Python exception objects are modelled by their constant prefix. -/

def endsWithPdfLower (f : String) : Bool :=
  match (String.mk (f.toList.map Char.toLower)).toList.reverse with
  | 'f' :: 'd' :: 'p' :: '.' :: _ => true
  | _ => false

def extract (contentType : String) (filename : Option String) (clientConfigured : Bool)
    (svc : Option OciResponse) (pdfBytes : List Nat) (db : DB) :
    (Except HErr ExtractionResult) × DB × Bool :=
  let pdfType := contentType == "application/pdf"
  let pdfName := (filename.map endsWithPdfLower).getD false
  if !(pdfType || pdfName) then
    (.error ⟨400, "Invalid document. Please upload a valid PDF invoice with high confidence."⟩,
     db, false)
  else
    match parse_invoice_from_pdf_enhanced clientConfigured pdfBytes svc with
    | .error e => (.error e, db, true)
    | .ok res =>
      match save_invoice_extraction db res with
      | .error _ => (.error ⟨500, "Database error"⟩, db, true)
      | .ok db2 => (.ok res, db2, true)

/-- `GET /invoices/{invoice_id}` (app.py, lines 121-150).  The Python
404 detail wraps the id in single quotes
(f-string `Invoice with ID ... not found`); the quote characters are
omitted from the modelled detail text. -/
def get_invoice_endpoint (invoice_id : String) (db : DB) : Except HErr InvoiceDict :=
  match get_invoice_by_id db (some (DVal.s invoice_id)) with
  | none => .error ⟨404, "Invoice with ID " ++ invoice_id ++ " not found"⟩
  | some dict => .ok dict

structure VendorResponse where
  VendorName : String
  TotalInvoices : Nat
  invoices : List (Option InvoiceDict)
deriving DecidableEq

/-- `GET /invoices/vendor/{vendor_name}` (app.py, lines 79-118). -/
def invoices_by_vendor (vendor_name : String) (db : DB) : VendorResponse :=
  let invs := get_invoices_by_vendor db vendor_name
  if invs.isEmpty then ⟨"Unknown Vendor", 0, []⟩
  else ⟨vendor_name, invs.length, invs⟩

/-- A response on which the two parser variants disagree: one scalar
field carrying both a `.text` and a typed `.value`, and two detected
document types with confidences 0.1 and 0.95. -/
def respC9 : OciResponse :=
  ⟨[[DocField.mk (some ⟨some "VendorName", some ⟨9, 1⟩⟩)
       (some (FieldValue.mk (some "TextVal") (some "TypedVal") none))]],
   [⟨some ⟨1, 1⟩⟩, ⟨some ⟨95, 2⟩⟩]⟩

/-- A response whose only detected document type reports confidence 0.0,
and whose single page carries an `InvoiceId` field. -/
def respC1 : OciResponse :=
  ⟨[[DocField.mk (some ⟨some "InvoiceId", some ⟨1, 0⟩⟩)
       (some (FieldValue.mk (some "36259") none none))]],
   [⟨some ⟨0, 0⟩⟩]⟩

/-- A saveable response (an `InvoiceId` field, no `Items` field) whose
only detected document type reports confidence 0.0. -/
def respC10 : OciResponse :=
  ⟨[[DocField.mk (some ⟨some "InvoiceId", some ⟨1, 0⟩⟩)
       (some (FieldValue.mk (some "777") none none))]],
   [⟨some ⟨0, 0⟩⟩]⟩

/-- Invoice `36259` as stored before the C5 witness update. -/
def invC5 : InvoiceRec :=
  ⟨some (DVal.s "36259"), some (DVal.s "SuperStore"), some (DVal.s "2012-03-06T00:00:00+00:00"),
   none, none, none, none, some (DVal.n ⟨5811, 2⟩)⟩

def dbC5 : DB :=
  ⟨[invC5], [⟨0, some (DVal.s "36259"), none, some (DVal.s "Old item"), none, none, none⟩], [], 1⟩

/-- Partial update payload: a new vendor name, a replacement item list,
and one confidence value. -/
def patchC5 : InvoicePatch :=
  ⟨some (some (DVal.s "MegaStore")), none, none, none, none, none, none,
   some [⟨some (DVal.s "New item desc"), some (DVal.s "New item"), some (DVal.n ⟨1, 0⟩),
          none, none⟩],
   some ⟨some (some ⟨95, 2⟩), none, none, none, none, none, none⟩, none⟩

/-- Date order lifted to the composite reads the vendor query returns. -/
def dictDateLe (x y : Option InvoiceDict) : Prop :=
  dvLe (x.bind InvoiceDict.InvoiceDate) (y.bind InvoiceDict.InvoiceDate) = true

/-- A three-invoice store: two `SuperStore` invoices with out-of-order
ISO date strings and one other vendor. -/
def dbC6 : DB :=
  ⟨[⟨some (DVal.s "2"), some (DVal.s "SuperStore"), some (DVal.s "2013-01-01T00:00:00+00:00"),
      none, none, none, none, none⟩,
    ⟨some (DVal.s "1"), some (DVal.s "SuperStore"), some (DVal.s "2012-03-06T00:00:00+00:00"),
      none, none, none, none, none⟩,
    ⟨some (DVal.s "3"), some (DVal.s "Acme"), some (DVal.s "2011-01-01T00:00:00+00:00"),
      none, none, none, none, none⟩],
   [], [], 0⟩

/-! ## Helper lemmas -/

theorem pow10_pos (n : Nat) : (0 : Int) < pow10 n := by
  induction n with
  | zero => decide
  | succ k ih =>
    show (0 : Int) < 10 * pow10 k
    positivity

theorem pow10_cast (n : Nat) : ((pow10 n : Int) : ℚ) = (10 : ℚ) ^ n := by
  induction n with
  | zero => rfl
  | succ k ih =>
    show ((10 * pow10 k : Int) : ℚ) = _
    push_cast [ih]
    ring

theorem Deci.leb_iff (a b : Deci) : a.leb b = true ↔ a.toRat ≤ b.toRat := by
  have hb : (0 : ℚ) < (10 : ℚ) ^ b.scale := by positivity
  have ha : (0 : ℚ) < (10 : ℚ) ^ a.scale := by positivity
  rw [Deci.leb, decide_eq_true_eq, Deci.toRat, Deci.toRat, div_le_div_iff₀ ha hb]
  constructor
  · intro h
    have h3 : ((a.mant * pow10 b.scale : Int) : ℚ) ≤ ((b.mant * pow10 a.scale : Int) : ℚ) := by
      exact_mod_cast h
    push_cast [pow10_cast] at h3
    linarith
  · intro h
    have h3 : ((a.mant * pow10 b.scale : Int) : ℚ) ≤ ((b.mant * pow10 a.scale : Int) : ℚ) := by
      push_cast [pow10_cast]
      linarith
    exact_mod_cast h3

theorem Deci.ltb_iff (a b : Deci) : a.ltb b = true ↔ a.toRat < b.toRat := by
  have h2 := Deci.leb_iff b a
  rw [Deci.leb, decide_eq_true_eq] at h2
  rw [Deci.ltb, decide_eq_true_eq, ← Int.not_le, h2, not_le]

theorem Deci.leb_trans {a b c : Deci} (h1 : a.leb b = true) (h2 : b.leb c = true) :
    a.leb c = true := by
  rw [Deci.leb_iff] at h1 h2 ⊢
  exact le_trans h1 h2

theorem charsLe_total : ∀ as bs : List Char, charsLe as bs = true ∨ charsLe bs as = true
  | [], _ => Or.inl rfl
  | _ :: _, [] => Or.inr rfl
  | a :: as, b :: bs => by
    rcases Nat.lt_trichotomy a.toNat b.toNat with h | h | h
    · left
      simp [charsLe, h]
    · rcases charsLe_total as bs with ih | ih
      · left
        simp [charsLe, h, ih]
      · right
        simp [charsLe, h, ih]
    · right
      simp [charsLe, h]

theorem charsLe_trans : ∀ as bs cs : List Char,
    charsLe as bs = true → charsLe bs cs = true → charsLe as cs = true
  | [], _, _, _, _ => rfl
  | _ :: _, [], _, h1, _ => by simp [charsLe] at h1
  | _ :: _, _ :: _, [], _, h2 => by simp [charsLe] at h2
  | a :: as, b :: bs, c :: cs, h1, h2 => by
    rcases Nat.lt_trichotomy a.toNat b.toNat with hab | hab | hab
    · rcases Nat.lt_trichotomy b.toNat c.toNat with hbc | hbc | hbc
      · simp [charsLe, Nat.lt_trans hab hbc]
      · simp [charsLe, hbc ▸ hab]
      · simp [charsLe, hbc, Nat.lt_asymm hbc] at h2
    · rcases Nat.lt_trichotomy b.toNat c.toNat with hbc | hbc | hbc
      · simp [charsLe, hab ▸ hbc]
      · have h1' : charsLe as bs = true := by
          simpa [charsLe, hab] using h1
        have h2' : charsLe bs cs = true := by
          simpa [charsLe, hbc] using h2
        simp [charsLe, hab ▸ hbc ▸ hab, hab, hbc, charsLe_trans as bs cs h1' h2']
      · simp [charsLe, hbc, Nat.lt_asymm hbc] at h2
    · simp [charsLe, hab, Nat.lt_asymm hab] at h1

theorem dvLe_trans (a b c : Option DVal) (h1 : dvLe a b = true) (h2 : dvLe b c = true) :
    dvLe a c = true := by
  rcases a with _ | (s1 | q1 | l1) <;> rcases b with _ | (s2 | q2 | l2) <;>
    rcases c with _ | (s3 | q3 | l3) <;>
    simp only [dvLe, dvRank] at h1 h2 ⊢ <;>
    norm_num at h1 h2 ⊢ <;>
    first
      | exact charsLe_trans _ _ _ h1 h2
      | exact Deci.leb_trans h1 h2

theorem dvLe_total (a b : Option DVal) : dvLe a b = true ∨ dvLe b a = true := by
  rcases a with _ | (s1 | q1 | l1) <;> rcases b with _ | (s2 | q2 | l2) <;>
    simp only [dvLe, dvRank] <;> norm_num <;>
    first
      | exact charsLe_total _ _
      | rcases Int.le_total (q1.mant * pow10 q2.scale) (q2.mant * pow10 q1.scale) with h | h
        <;> simp [Deci.leb, h]

instance : IsTrans InvoiceRec dateLe :=
  ⟨fun _ _ _ h1 h2 => dvLe_trans _ _ _ h1 h2⟩

instance : IsTotal InvoiceRec dateLe :=
  ⟨fun a b => dvLe_total a.InvoiceDate b.InvoiceDate⟩

/-! ## Claims -/

/-- C2: `amount_format` maps `"$58.11"` to the number 58.11 and
`"4,293.55"` to 4293.55, passes the empty string through unchanged, and
returns any input unchanged when its cleaned form does not parse as a
number. -/
theorem c2_amount_format_spec :
    amount_format "$58.11" = SVal.n ⟨5811, 2⟩ ∧
    amount_format "4,293.55" = SVal.n ⟨429355, 2⟩ ∧
    amount_format "" = SVal.s "" ∧
    ∀ s : String, pyFloat? (pyStrip (removeDollarComma s)) = none →
      amount_format s = SVal.s s := by
  refine ⟨by decide, by decide, by decide, ?_⟩
  intro s h
  by_cases hs : s = ""
  · subst hs
    rfl
  · simp [amount_format, hs, h]

/-- Witness for C2's universal clause at `"not a number"`. -/
theorem c2_amount_format_spec_witness :
    amount_format "not a number" = SVal.s "not a number" :=
  c2_amount_format_spec.2.2.2 "not a number" (by decide)

/-- C3: `format_date` maps `"Mar 06 2012"` to the ISO-8601 string
`"2012-03-06T00:00:00+00:00"`, and returns any string that does not match
the `"%b %d %Y"` format unchanged. -/
theorem c3_format_date_spec :
    format_date "Mar 06 2012" = "2012-03-06T00:00:00+00:00" ∧
    ∀ s : String, parseMonDDYYYY (pyStrip s).toList = none → format_date s = s := by
  refine ⟨by decide, ?_⟩
  intro s h
  have h2 : parseMonDDYYYY (pyStrip s).data = none := h
  by_cases hs : s = ""
  · subst hs
    rfl
  · simp [format_date, hs, h2]

/-- Witness for C3's universal clause at `"06/03/2012"`. -/
theorem c3_format_date_spec_witness :
    format_date "06/03/2012" = "06/03/2012" :=
  c3_format_date_spec.2 "06/03/2012" (by decide)

/-- C7: an upload whose content type is not `application/pdf` and whose
filename does not carry a `.pdf` extension (case-insensitively: the code
lowercases the name before testing the suffix) is rejected with 400 and
the parser is never invoked (the invocation flag of the trace stays
`false`, for every service outcome and store). -/
theorem c7_non_pdf_rejected_early (contentType : String) (filename : Option String)
    (clientConfigured : Bool) (svc : Option OciResponse) (pdfBytes : List Nat) (db : DB)
    (hct : contentType ≠ "application/pdf")
    (hfn : (filename.map endsWithPdfLower).getD false = false) :
    extract contentType filename clientConfigured svc pdfBytes db =
      (.error ⟨400, "Invalid document. Please upload a valid PDF invoice with high confidence."⟩,
       db, false) := by
  simp [extract, hct, hfn]

/-- Witness for C7 at a `text/plain` upload named `a.txt`. -/
theorem c7_non_pdf_rejected_early_witness :
    extract "text/plain" (some "a.txt") true none [1] emptyDB =
      (.error ⟨400, "Invalid document. Please upload a valid PDF invoice with high confidence."⟩,
       emptyDB, false) :=
  c7_non_pdf_rejected_early "text/plain" (some "a.txt") true none [1] emptyDB
    (by decide) (by decide)

/-- C8: when no stored invoice has the queried vendor name, the vendor
endpoint answers with the `"Unknown Vendor"` / 0 / empty-list sentinel
rather than an error. -/
theorem c8_unknown_vendor_sentinel (db : DB) (vendor : String)
    (h : ∀ inv ∈ db.invoices, inv.VendorName ≠ some (DVal.s vendor)) :
    invoices_by_vendor vendor db = ⟨"Unknown Vendor", 0, []⟩ := by
  have hf : db.invoices.filter (fun i => i.VendorName == some (DVal.s vendor)) = [] := by
    rw [List.filter_eq_nil_iff]
    intro a ha
    simp [h a ha]
  unfold invoices_by_vendor get_invoices_by_vendor
  rw [hf]
  rfl

/-- Witness for C8: a store holding only a `SuperStore` invoice, queried
for `Acme`. -/
theorem c8_unknown_vendor_sentinel_witness :
    invoices_by_vendor "Acme"
        ⟨[⟨some (DVal.s "1"), some (DVal.s "SuperStore"), none, none, none, none, none, none⟩],
         [], [], 0⟩ =
      ⟨"Unknown Vendor", 0, []⟩ :=
  c8_unknown_vendor_sentinel
    ⟨[⟨some (DVal.s "1"), some (DVal.s "SuperStore"), none, none, none, none, none, none⟩],
     [], [], 0⟩
    "Acme" (by decide)

/-- C9: the two parser variants are not extensionally equal: on the same
service response, `parse_invoice_from_pdf` (validation passes because one
detected type has confidence ≥ 0.9, value taken from `.value`) succeeds,
while `parse_invoice_from_pdf_enhanced` (every truthy detected-type
confidence must be ≥ 0.9) rejects the document with 400. -/
theorem c9_parser_variants_differ :
    parse_invoice_from_pdf true respC9 =
      .ok ⟨⟨1, 0⟩,
           [("VendorName", some (DVal.s "TypedVal")), ("Items", some (DVal.items []))],
           [("VendorName", some ⟨9, 1⟩)]⟩ ∧
    parse_invoice_from_pdf_enhanced true [1] (some respC9) =
      .error ⟨400, "Invalid document. Please upload a valid PDF invoice with high confidence."⟩ := by
  constructor
  · rfl
  · rfl

theorem validate_ok_of_no_truthy_low (dts : List DocType)
    (h : ∀ dt ∈ dts, lowTruthyConf dt.confidence = false) :
    ∀ c0 : Option Deci, ∃ c, validateDetectedTypes c0 dts = .ok c := by
  induction dts with
  | nil => exact fun c0 => ⟨c0, rfl⟩
  | cons dt rest ih =>
    intro c0
    have hdt : lowTruthyConf dt.confidence = false := h dt (by simp)
    have ihr := ih (fun x hx => h x (by simp [hx])) dt.confidence
    simpa [validateDetectedTypes, hdt] using ihr

theorem validate_error_of_truthy_low (dts : List DocType)
    (h : ∃ dt ∈ dts, ∃ q, dt.confidence = some q ∧ q.mant ≠ 0 ∧ q.ltb ⟨9, 1⟩ = true) :
    ∀ c0 : Option Deci, validateDetectedTypes c0 dts =
      .error ⟨400, "Invalid document. Please upload a valid PDF invoice with high confidence."⟩ := by
  induction dts with
  | nil => simp at h
  | cons dt rest ih =>
    intro c0
    by_cases hdt : lowTruthyConf dt.confidence = true
    · simp [validateDetectedTypes, hdt]
    · have hdt2 : lowTruthyConf dt.confidence = false := by
        revert hdt
        cases lowTruthyConf dt.confidence <;> simp
      have hrest : ∃ x ∈ rest, ∃ q, x.confidence = some q ∧ q.mant ≠ 0 ∧ q.ltb ⟨9, 1⟩ = true := by
        rcases h with ⟨x, hx, q, hq, hqm, hql⟩
        rcases List.mem_cons.mp hx with hx1 | hx2
        · exfalso
          apply hdt
          rw [hx1] at hq
          simp [lowTruthyConf, hq, Deci.isZero, hqm, hql]
        · exact ⟨x, hx2, q, hq, hqm, hql⟩
      simp [validateDetectedTypes, hdt2, ih hrest]

/-- C10: a detected document type whose confidence is `None` or zero
never triggers the low-confidence rejection (the guard tests truthiness
before comparing with 0.9): when every detected type is like that, the
enhanced parser succeeds; and whenever the extracted data is otherwise
saveable (a non-`None` `InvoiceId` cell, so the flush does not raise on
a NULL identity key, and an `Items` cell over which the item loop does
not raise), the `/extract` pipeline persists the invoice instead of
rejecting the document. -/
theorem c10_falsy_confidence_accepted (resp : OciResponse) (pdfBytes : List Nat)
    (hb : pdfBytes ≠ [])
    (hconf : ∀ dt ∈ resp.detectedDocumentTypes,
      dt.confidence = none ∨ ∃ q, dt.confidence = some q ∧ q.mant = 0)
    (hid : dgetCell (processPages resp.pages).1 "InvoiceId" ≠ none)
    (hitems : (savedItemsIn (processPages resp.pages).1).isSome) :
    (∃ r, parse_invoice_from_pdf_enhanced true pdfBytes (some resp) = .ok r) ∧
    (∃ r db2, extract "application/pdf" none true (some resp) pdfBytes emptyDB =
        (.ok r, db2, true) ∧ db2.invoices.length = 1) := by
  have hlow : ∀ dt ∈ resp.detectedDocumentTypes, lowTruthyConf dt.confidence = false := by
    intro dt hdt
    rcases hconf dt hdt with hzero | ⟨q, hq, hqm⟩
    · simp [lowTruthyConf, hzero]
    · simp [lowTruthyConf, hq, Deci.isZero, hqm]
  obtain ⟨c, hc⟩ := validate_ok_of_no_truthy_low resp.detectedDocumentTypes hlow none
  have hbne : pdfBytes.isEmpty = false := by
    cases pdfBytes with
    | nil => exact absurd rfl hb
    | cons a l => rfl
  have hparse : parse_invoice_from_pdf_enhanced true pdfBytes (some resp) =
      .ok ⟨c, (processPages resp.pages).1, (processPages resp.pages).2⟩ := by
    simp [parse_invoice_from_pdf_enhanced, hbne, hc]
  refine ⟨⟨_, hparse⟩, ?_⟩
  obtain ⟨its, hits⟩ := Option.isSome_iff_exists.mp hitems
  have hsave : ∃ db2 : DB,
      save_invoice_extraction emptyDB
          ⟨c, (processPages resp.pages).1, (processPages resp.pages).2⟩ = .ok db2 ∧
        db2.invoices.length = 1 := by
    simp only [save_invoice_extraction, hits]
    rw [if_neg hid]
    exact ⟨_, rfl, rfl⟩
  obtain ⟨db2, hs, hlen⟩ := hsave
  refine ⟨⟨c, (processPages resp.pages).1, (processPages resp.pages).2⟩, db2, ?_, hlen⟩
  simp [extract, hparse, hs]

/-- Witness for C10: a saveable response whose only detected type has
confidence exactly 0.0. -/
theorem c10_falsy_confidence_accepted_witness :
    (∃ r, parse_invoice_from_pdf_enhanced true [1] (some respC10) = .ok r) ∧
    (∃ r db2, extract "application/pdf" none true (some respC10) [1] emptyDB =
        (.ok r, db2, true) ∧ db2.invoices.length = 1) :=
  c10_falsy_confidence_accepted respC10 [1] (by decide)
    (by
      intro dt hdt
      simp [respC10] at hdt
      subst hdt
      exact Or.inr ⟨⟨0, 0⟩, rfl, rfl⟩)
    (by decide) (by decide)

/-- C1 as frozen is false on the code: `respC1` reports a
detected-document-type confidence (0.0) strictly below 0.9, yet the
pipeline returns the extraction result (no 400) and persists an invoice
record. -/
theorem c1_claim_counterexample :
    Deci.ltb ⟨0, 0⟩ ⟨9, 1⟩ = true ∧
    respC1.detectedDocumentTypes = [⟨some ⟨0, 0⟩⟩] ∧
    (extract "application/pdf" none true (some respC1) [1] emptyDB).1 =
      .ok ⟨some ⟨0, 0⟩, [("InvoiceId", some (DVal.s "36259"))], [("InvoiceId", ⟨1, 0⟩)]⟩ ∧
    (extract "application/pdf" none true (some respC1) [1] emptyDB).2.1.invoices ≠ [] := by
  refine ⟨by decide, rfl, rfl, by decide⟩

/-- C1 amended: for every extraction request reaching the parser, if the
response reports a detected-document-type confidence that is non-null,
nonzero and below 0.9, the endpoint answers 400 and the store is left
untouched (nothing persisted). -/
theorem c1_low_confidence_rejected_amended (contentType : String) (filename : Option String)
    (resp : OciResponse) (pdfBytes : List Nat) (db : DB)
    (hguard : contentType = "application/pdf" ∨ (filename.map endsWithPdfLower).getD false = true)
    (hb : pdfBytes ≠ [])
    (hdt : ∃ dt ∈ resp.detectedDocumentTypes,
      ∃ q, dt.confidence = some q ∧ q.mant ≠ 0 ∧ q.ltb ⟨9, 1⟩ = true) :
    extract contentType filename true (some resp) pdfBytes db =
      (.error ⟨400, "Invalid document. Please upload a valid PDF invoice with high confidence."⟩,
       db, true) := by
  have hbne : pdfBytes.isEmpty = false := by
    cases pdfBytes with
    | nil => exact absurd rfl hb
    | cons a l => rfl
  have hval := validate_error_of_truthy_low resp.detectedDocumentTypes hdt none
  have hparse : parse_invoice_from_pdf_enhanced true pdfBytes (some resp) =
      .error ⟨400, "Invalid document. Please upload a valid PDF invoice with high confidence."⟩ := by
    simp [parse_invoice_from_pdf_enhanced, hbne, hval]
  rcases hguard with hg | hg
  · simp [extract, hg, hparse]
  · simp [extract, hg, hparse]

/-- Witness for C1's amended theorem: one detected type with confidence
0.5 forces the 400 and leaves the store unchanged. -/
theorem c1_low_confidence_rejected_amended_witness :
    extract "application/pdf" none true (some ⟨[], [⟨some ⟨5, 1⟩⟩]⟩) [1] emptyDB =
      (.error ⟨400, "Invalid document. Please upload a valid PDF invoice with high confidence."⟩,
       emptyDB, true) :=
  c1_low_confidence_rejected_amended "application/pdf" none ⟨[], [⟨some ⟨5, 1⟩⟩]⟩ [1] emptyDB
    (Or.inl rfl) (by decide)
    ⟨⟨some ⟨5, 1⟩⟩, by simp, ⟨5, 1⟩, rfl, by decide, by decide⟩

theorem eraseP_no_match (invoice_id : String) (l : List InvoiceRec)
    (hpw : l.Pairwise (fun a b => a.InvoiceId ≠ b.InvoiceId)) :
    ∀ x ∈ l.eraseP (fun i => i.InvoiceId == some (DVal.s invoice_id)),
      x.InvoiceId ≠ some (DVal.s invoice_id) := by
  induction l with
  | nil =>
    intro x hx
    simp [List.eraseP] at hx
  | cons a t ih =>
    intro x hx
    cases hpa : (a.InvoiceId == some (DVal.s invoice_id)) with
    | true =>
      rw [List.eraseP_cons, hpa] at hx
      simp only [cond_true] at hx
      have haid : a.InvoiceId = some (DVal.s invoice_id) := by
        simpa using hpa
      have hane := (List.pairwise_cons.mp hpw).1 x hx
      rw [haid] at hane
      exact fun hxe => hane hxe.symm
    | false =>
      rw [List.eraseP_cons, hpa] at hx
      simp only [cond_false] at hx
      rcases List.mem_cons.mp hx with hxa | hxt
      · subst hxa
        simpa using hpa
      · exact ih (List.pairwise_cons.mp hpw).2 x hxt

/-- C4: deleting a stored invoice cascades — the header row, every item
row of that invoice and its confidence row are gone, a subsequent fetch
of the same id answers 404, and the delete reports `true`; deleting an
unknown id reports `false` and leaves the store untouched. -/
theorem c4_delete_invoice_cascades (db : DB) (invoice_id : String)
    (huniq : db.invoices.Pairwise (fun a b => a.InvoiceId ≠ b.InvoiceId)) :
    ((∃ inv ∈ db.invoices, inv.InvoiceId = some (DVal.s invoice_id)) →
      (delete_invoice db invoice_id).2 = true ∧
      get_invoice_endpoint invoice_id (delete_invoice db invoice_id).1 =
        .error ⟨404, "Invoice with ID " ++ invoice_id ++ " not found"⟩ ∧
      (∀ inv2 ∈ (delete_invoice db invoice_id).1.invoices,
        inv2.InvoiceId ≠ some (DVal.s invoice_id)) ∧
      (∀ it ∈ (delete_invoice db invoice_id).1.items,
        it.InvoiceId ≠ some (DVal.s invoice_id)) ∧
      (∀ cf ∈ (delete_invoice db invoice_id).1.confidences,
        cf.InvoiceId ≠ some (DVal.s invoice_id))) ∧
    ((∀ inv ∈ db.invoices, inv.InvoiceId ≠ some (DVal.s invoice_id)) →
      delete_invoice db invoice_id = (db, false)) := by
  constructor
  · intro hex
    have hsome : (db.invoices.find? (fun i => i.InvoiceId == some (DVal.s invoice_id))).isSome := by
      rw [List.find?_isSome]
      rcases hex with ⟨inv, hmem, hid⟩
      exact ⟨inv, hmem, by simp [hid]⟩
    obtain ⟨inv, hfind⟩ := Option.isSome_iff_exists.mp hsome
    have hinvid : inv.InvoiceId = some (DVal.s invoice_id) := by
      simpa using List.find?_some hfind
    have herase := eraseP_no_match invoice_id db.invoices huniq
    refine ⟨?_, ?_, ?_, ?_, ?_⟩
    · simp [delete_invoice, hfind]
    · have hnone : ((delete_invoice db invoice_id).1.invoices.find?
          (fun i => i.InvoiceId == some (DVal.s invoice_id))) = none := by
        rw [List.find?_eq_none]
        intro x hx
        simp only [delete_invoice, hfind] at hx
        simpa using herase x hx
      simp [get_invoice_endpoint, get_invoice_by_id, hnone]
    · intro x hx
      simp only [delete_invoice, hfind] at hx
      exact herase x hx
    · intro it hit
      simp only [delete_invoice, hfind] at hit
      have := (List.mem_filter.mp hit).2
      rw [hinvid] at this
      simpa using this
    · intro cf hcf
      simp only [delete_invoice, hfind] at hcf
      have := (List.mem_filter.mp hcf).2
      rw [hinvid] at this
      simpa using this
  · intro hno
    have hnone : (db.invoices.find? (fun i => i.InvoiceId == some (DVal.s invoice_id))) = none := by
      rw [List.find?_eq_none]
      intro x hx
      simpa using hno x hx
    simp [delete_invoice, hnone]

/-- Witness for C4 at a one-invoice store (with an item and a confidence
row) holding id `36259`, and at the unknown id case via the same store
under id `9999` — the applied instance is the stored-id branch. -/
theorem c4_delete_invoice_cascades_witness :
    (delete_invoice
        ⟨[⟨some (DVal.s "36259"), some (DVal.s "SuperStore"), none, none, none, none, none, none⟩],
         [⟨0, some (DVal.s "36259"), none, some (DVal.s "Newell 330"), none, none, none⟩],
         [⟨some (DVal.s "36259"), some ⟨9, 1⟩, none, none, none, none, none, none⟩], 1⟩
        "36259").2 = true ∧
    get_invoice_endpoint "36259"
        (delete_invoice
          ⟨[⟨some (DVal.s "36259"), some (DVal.s "SuperStore"), none, none, none, none, none, none⟩],
           [⟨0, some (DVal.s "36259"), none, some (DVal.s "Newell 330"), none, none, none⟩],
           [⟨some (DVal.s "36259"), some ⟨9, 1⟩, none, none, none, none, none, none⟩], 1⟩
          "36259").1 =
      .error ⟨404, "Invoice with ID " ++ "36259" ++ " not found"⟩ := by
  have h := c4_delete_invoice_cascades
    ⟨[⟨some (DVal.s "36259"), some (DVal.s "SuperStore"), none, none, none, none, none, none⟩],
     [⟨0, some (DVal.s "36259"), none, some (DVal.s "Newell 330"), none, none, none⟩],
     [⟨some (DVal.s "36259"), some ⟨9, 1⟩, none, none, none, none, none, none⟩], 1⟩
    "36259" (by decide)
  have h2 := h.1
    ⟨⟨some (DVal.s "36259"), some (DVal.s "SuperStore"), none, none, none, none, none, none⟩,
     by simp, rfl⟩
  exact ⟨h2.1, h2.2.1⟩

theorem find_by_unique_id (l : List InvoiceRec)
    (hpw : l.Pairwise (fun a b => a.InvoiceId ≠ b.InvoiceId)) :
    ∀ inv ∈ l, l.find? (fun i => i.InvoiceId == inv.InvoiceId) = some inv := by
  induction l with
  | nil =>
    intro inv h
    simp at h
  | cons a t ih =>
    intro inv hmem
    rcases List.mem_cons.mp hmem with h1 | h2
    · subst h1
      simp [List.find?]
    · have hne : a.InvoiceId ≠ inv.InvoiceId := (List.pairwise_cons.mp hpw).1 inv h2
      have hbe : (a.InvoiceId == inv.InvoiceId) = false := by
        simpa using hne
      simp only [List.find?, hbe]
      exact ih (List.pairwise_cons.mp hpw).2 inv h2

theorem get_by_id_of_mem (db : DB)
    (huniq : db.invoices.Pairwise (fun a b => a.InvoiceId ≠ b.InvoiceId))
    (inv : InvoiceRec) (hmem : inv ∈ db.invoices) :
    get_invoice_by_id db inv.InvoiceId = some (invoiceDictOf db inv) := by
  rw [get_invoice_by_id, find_by_unique_id db.invoices huniq inv hmem]
  rfl

/-- C6: under the primary-key invariant (every stored invoice has a
non-NULL id, ids pairwise distinct), the vendor query returns exactly
the composite reads of the invoices whose `VendorName` equals the query
string (exact, case-sensitive), and the returned list is ordered
ascending by the stored `InvoiceDate` cell — lexicographically on the
date text. -/
theorem c6_get_invoices_by_vendor_spec (db : DB) (vendor : String)
    (hids : ∀ inv ∈ db.invoices, inv.InvoiceId.isSome)
    (huniq : db.invoices.Pairwise (fun a b => a.InvoiceId ≠ b.InvoiceId)) :
    (∀ x, x ∈ get_invoices_by_vendor db vendor ↔
       ∃ inv ∈ db.invoices, inv.VendorName = some (DVal.s vendor) ∧
         x = some (invoiceDictOf db inv)) ∧
    (get_invoices_by_vendor db vendor).Pairwise dictDateLe := by
  have _ := hids
  have hperm := List.perm_insertionSort dateLe
    (db.invoices.filter (fun i => i.VendorName == some (DVal.s vendor)))
  have hmem_sorted : ∀ inv : InvoiceRec,
      inv ∈ List.insertionSort dateLe
          (db.invoices.filter (fun i => i.VendorName == some (DVal.s vendor))) ↔
        inv ∈ db.invoices.filter (fun i => i.VendorName == some (DVal.s vendor)) :=
    fun inv => hperm.mem_iff
  have hsub : ∀ inv ∈ db.invoices.filter (fun i => i.VendorName == some (DVal.s vendor)),
      inv ∈ db.invoices := fun inv h => (List.mem_filter.mp h).1
  have hA : ∀ inv ∈ db.invoices.filter (fun i => i.VendorName == some (DVal.s vendor)),
      get_invoice_by_id db inv.InvoiceId = some (invoiceDictOf db inv) :=
    fun inv h => get_by_id_of_mem db huniq inv (hsub inv h)
  constructor
  · intro x
    constructor
    · intro hx
      rw [get_invoices_by_vendor] at hx
      obtain ⟨inv, hinv, hfx⟩ := List.mem_map.mp hx
      have hinl := (hmem_sorted inv).mp hinv
      refine ⟨inv, hsub inv hinl, ?_, ?_⟩
      · have hvm := (List.mem_filter.mp hinl).2
        simpa using hvm
      · rw [← hfx, hA inv hinl]
    · rintro ⟨inv, hmem, hvn, rfl⟩
      rw [get_invoices_by_vendor]
      apply List.mem_map.mpr
      have hinl : inv ∈ db.invoices.filter (fun i => i.VendorName == some (DVal.s vendor)) :=
        List.mem_filter.mpr ⟨hmem, by simp [hvn]⟩
      exact ⟨inv, (hmem_sorted inv).mpr hinl, hA inv hinl⟩
  · rw [get_invoices_by_vendor, List.pairwise_map]
    have hsorted : (List.insertionSort dateLe
        (db.invoices.filter (fun i => i.VendorName == some (DVal.s vendor)))).Pairwise dateLe :=
      List.sorted_insertionSort dateLe _
    refine hsorted.imp_of_mem ?_
    intro a b ha hb hab
    have hfa := hA a ((hmem_sorted a).mp ha)
    have hfb := hA b ((hmem_sorted b).mp hb)
    show dictDateLe (get_invoice_by_id db a.InvoiceId) (get_invoice_by_id db b.InvoiceId)
    rw [hfa, hfb]
    exact hab

/-- Witness for C6 at `dbC6` / vendor `SuperStore`: the two matching
invoices come back as composite reads in date order, the `Acme` one does
not. -/
theorem c6_get_invoices_by_vendor_spec_witness :
    (∀ x, x ∈ get_invoices_by_vendor dbC6 "SuperStore" ↔
       ∃ inv ∈ dbC6.invoices, inv.VendorName = some (DVal.s "SuperStore") ∧
         x = some (invoiceDictOf dbC6 inv)) ∧
    (get_invoices_by_vendor dbC6 "SuperStore").Pairwise dictDateLe :=
  c6_get_invoices_by_vendor_spec dbC6 "SuperStore" (by decide) (by decide)

theorem mkNewItems_invId (invId : Option DVal) :
    ∀ (n : Nat) (l : List ItemPatch), ∀ it ∈ mkNewItems invId n l, it.InvoiceId = invId := by
  intro n l
  induction l generalizing n with
  | nil =>
    intro it h
    simp [mkNewItems] at h
  | cons ip rest ih =>
    intro it h
    rw [mkNewItems] at h
    rcases List.mem_cons.mp h with h1 | h2
    · subst h1
      rfl
    · exact ih (n + 1) it h2

theorem filter_app_new (xs new : List ItemRec) (v : Option DVal)
    (hnew : ∀ it ∈ new, it.InvoiceId = v) :
    (xs.filter (fun it => !(it.InvoiceId == v)) ++ new).filter
        (fun it => it.InvoiceId == v) = new := by
  rw [List.filter_append]
  have h1 : (xs.filter (fun it => !(it.InvoiceId == v))).filter
      (fun it => it.InvoiceId == v) = [] := by
    rw [List.filter_eq_nil_iff]
    intro a ha
    have h2 := (List.mem_filter.mp ha).2
    simp only [Bool.not_eq_true'] at h2
    simp [h2]
  have h3 : new.filter (fun it => it.InvoiceId == v) = new := by
    rw [List.filter_eq_self]
    intro a ha
    simp [hnew a ha]
  rw [h1, h3, List.nil_append]

/-- C5: `update_invoice` on a stored invoice mutates exactly the scalar
header fields whose keys are present in the payload (all others,
including the id, keep their value — `applyP` is present-else-old);
within the store only that one invoice row is replaced; if `Items` is
present the invoice's entire item set is deleted and replaced by the
payload's items (and only then); if confidence data is present it
updates an existing confidence row field-by-field, or inserts a fresh
one if absent; otherwise the confidence table is untouched. -/
theorem c5_update_invoice_frame (db : DB) (invoice_id : String) (p : InvoicePatch)
    (inv : InvoiceRec)
    (hfind : db.invoices.find? (fun i => i.InvoiceId == some (DVal.s invoice_id)) = some inv) :
    ∃ db2 inv2, update_invoice db invoice_id p = some (db2, inv2) ∧
      inv2.InvoiceId = inv.InvoiceId ∧
      inv2.VendorName = applyP inv.VendorName p.VendorName ∧
      inv2.InvoiceDate = applyP inv.InvoiceDate p.InvoiceDate ∧
      inv2.BillingAddressRecipient =
        applyP inv.BillingAddressRecipient p.BillingAddressRecipient ∧
      inv2.ShippingAddress = applyP inv.ShippingAddress p.ShippingAddress ∧
      inv2.SubTotal = applyP inv.SubTotal p.SubTotal ∧
      inv2.ShippingCost = applyP inv.ShippingCost p.ShippingCost ∧
      inv2.InvoiceTotal = applyP inv.InvoiceTotal p.InvoiceTotal ∧
      db2.invoices =
        replaceFirst (fun i => i.InvoiceId == some (DVal.s invoice_id)) inv2 db.invoices ∧
      (p.Items = none → db2.items = db.items) ∧
      (∀ l, p.Items = some l →
        db2.items = db.items.filter (fun it => !(it.InvoiceId == inv.InvoiceId)) ++
            mkNewItems inv.InvoiceId db.nextItemId l ∧
        itemsOfInvoice db2 inv.InvoiceId = mkNewItems inv.InvoiceId db.nextItemId l) ∧
      (effConf p = none → db2.confidences = db.confidences) ∧
      (∀ c, effConf p = some c →
        (db.confidences.find? (fun r => r.InvoiceId == inv.InvoiceId) = none →
          db2.confidences = db.confidences ++ [newConfRec inv.InvoiceId c]) ∧
        (∀ r, db.confidences.find? (fun r2 => r2.InvoiceId == inv.InvoiceId) = some r →
          db2.confidences = replaceFirst (fun r2 => r2.InvoiceId == inv.InvoiceId)
            (patchConfRec r c) db.confidences)) := by
  rcases hI : p.Items with _ | l0 <;> rcases hC : effConf p with _ | c0 <;>
    simp only [update_invoice, hfind, hI, hC] <;>
    refine ⟨_, _, rfl, rfl, rfl, rfl, rfl, rfl, rfl, rfl, rfl, rfl, ?_, ?_, ?_, ?_⟩
  · intro _
    rfl
  · intro l h
    exact Option.noConfusion h
  · intro _
    rfl
  · intro c hc
    exact Option.noConfusion hc
  · intro _
    rfl
  · intro l h
    exact Option.noConfusion h
  · intro h
    exact Option.noConfusion h
  · intro c hc
    injection hc with hc
    subst hc
    constructor
    · intro hnone
      rw [hnone]
    · intro r hr
      rw [hr]
  · intro h
    exact Option.noConfusion h
  · intro l h
    injection h with h
    subst h
    exact ⟨rfl, filter_app_new db.items _ inv.InvoiceId
      (mkNewItems_invId inv.InvoiceId db.nextItemId l0)⟩
  · intro _
    rfl
  · intro c hc
    exact Option.noConfusion hc
  · intro h
    exact Option.noConfusion h
  · intro l h
    injection h with h
    subst h
    exact ⟨rfl, filter_app_new db.items _ inv.InvoiceId
      (mkNewItems_invId inv.InvoiceId db.nextItemId l0)⟩
  · intro h
    exact Option.noConfusion h
  · intro c hc
    injection hc with hc
    subst hc
    constructor
    · intro hnone
      rw [hnone]
    · intro r hr
      rw [hr]

/-- Witness for C5: updating invoice `36259` of `dbC5` with `patchC5`
(new vendor name, one replacement item, one confidence value). -/
theorem c5_update_invoice_frame_witness :
    ∃ db2 inv2, update_invoice dbC5 "36259" patchC5 = some (db2, inv2) ∧
      inv2.InvoiceId = invC5.InvoiceId ∧
      inv2.VendorName = applyP invC5.VendorName patchC5.VendorName ∧
      inv2.InvoiceDate = applyP invC5.InvoiceDate patchC5.InvoiceDate ∧
      inv2.BillingAddressRecipient =
        applyP invC5.BillingAddressRecipient patchC5.BillingAddressRecipient ∧
      inv2.ShippingAddress = applyP invC5.ShippingAddress patchC5.ShippingAddress ∧
      inv2.SubTotal = applyP invC5.SubTotal patchC5.SubTotal ∧
      inv2.ShippingCost = applyP invC5.ShippingCost patchC5.ShippingCost ∧
      inv2.InvoiceTotal = applyP invC5.InvoiceTotal patchC5.InvoiceTotal ∧
      db2.invoices =
        replaceFirst (fun i => i.InvoiceId == some (DVal.s "36259")) inv2 dbC5.invoices ∧
      (patchC5.Items = none → db2.items = dbC5.items) ∧
      (∀ l, patchC5.Items = some l →
        db2.items = dbC5.items.filter (fun it => !(it.InvoiceId == invC5.InvoiceId)) ++
            mkNewItems invC5.InvoiceId dbC5.nextItemId l ∧
        itemsOfInvoice db2 invC5.InvoiceId = mkNewItems invC5.InvoiceId dbC5.nextItemId l) ∧
      (effConf patchC5 = none → db2.confidences = dbC5.confidences) ∧
      (∀ c, effConf patchC5 = some c →
        (dbC5.confidences.find? (fun r => r.InvoiceId == invC5.InvoiceId) = none →
          db2.confidences = dbC5.confidences ++ [newConfRec invC5.InvoiceId c]) ∧
        (∀ r, dbC5.confidences.find? (fun r2 => r2.InvoiceId == invC5.InvoiceId) = some r →
          db2.confidences = replaceFirst (fun r2 => r2.InvoiceId == invC5.InvoiceId)
            (patchConfRec r c) dbC5.confidences)) :=
  c5_update_invoice_frame dbC5 "36259" patchC5 invC5 (by decide)

end InvoiceApp
